import Mathlib

/-!
Shallow embedding of `src/Offline/model.py` (Dual-mVEPs-Speller offline
training pipeline) and proofs about it.

Conventions of the embedding:
* numpy float arrays are modelled with exact rationals (`ℚ`); 1-D signals are
  `List ℚ`, 2-D raw recordings are `List (List ℚ)` (channels × samples), and
  3-D epoch tensors are either `List (List (List ℚ))` (epochs × channels ×
  samples) or, where elementwise algebra is proved, functions
  `Fin E → Fin C → Fin T → ℚ`.
* Python exceptions (`assert`, `raise KeyError`, a failed file load) are
  modelled with `Except String`.
* in-place numpy mutation (`value.sort()`, `X -= mean`) is modelled with an
  explicit heap: a store mapping references (`ℕ`) to array values, passed and
  returned explicitly.
* `scipy.signal.firwin` returns windowed-sinc coefficients whose values are
  irrational; the claims about it only concern the design arguments it is
  called with (numtaps, cutoffs, pass_zero), so the design is recorded in a
  `FirDesign` record and the coefficient computation is a parameter.
-/

namespace DualSpeller

/-! ## FeatExtractor (`model.py` lines 19-54) -/

/-- Design arguments of a `scipy.signal.firwin` call: number of taps, cutoff
band, sampling frequency and the `pass_zero` flag. -/
structure FirDesign where
  numtaps : ℕ
  cutoffs : List ℚ
  fs : ℚ
  pass_zero : Bool
  deriving Repr, DecidableEq

/-- State of a constructed `FeatExtractor`: sampling frequency, ERP band and
the FIR filter, stored as its design plus its coefficient list `b_erp`
(the `(b_erp, 1)` pair of the Python code has denominator 1, i.e. FIR). -/
structure FeatExtractor where
  sfreq : ℕ
  band_erp : List ℚ
  design : FirDesign
  b_erp : List ℚ
  deriving Repr, DecidableEq

/-- `FeatExtractor.__init__` (`model.py` lines 20-45).  `firwin` is the
external coefficient computation (`scipy.signal.firwin`), abstracted because
its output values are irrational; the code calls it with `n + 1` taps where
`n = int(sfreq / 5)` when no explicit order is given, `pass_zero=True` when
the band has a single value and `pass_zero=False` otherwise.  The
`assert band_erp is not None` on line 32 becomes the `Except.error` branch. -/
def mkFeatExtractor (firwin : FirDesign → List ℚ) (sfreq : ℕ)
    (band_erp : Option (List ℚ)) (n : Option ℕ) : Except String FeatExtractor :=
  match band_erp with
  | none => .error "AssertionError: band_erp is None"
  | some band =>
    let n := n.getD (sfreq / 5)
    let d : FirDesign :=
      if band.length = 1 then ⟨n + 1, band, (sfreq : ℚ), true⟩
      else ⟨n + 1, band, (sfreq : ℚ), false⟩
    .ok ⟨sfreq, band, d, firwin d⟩

/-- Causal FIR filtering with zero initial conditions:
`y[i] = Σ_{k ≤ i, k < |b|} b[k] * x[i-k]` (`scipy.signal.lfilter` with
denominator `a = 1`). -/
def lfilterFIR (b : List ℚ) (x : List ℚ) : List ℚ :=
  (List.range x.length).map fun i =>
    ((List.range b.length).map fun k =>
      if k ≤ i then b.getD k 0 * x.getD (i - k) 0 else 0).sum

/-- Zero-phase forward-backward filtering (`scipy.signal.filtfilt` with a pure
FIR numerator): filter forward, reverse, filter again, reverse back.  The
shape-neutral edge padding scipy performs (pad, filter, unpad) is omitted; it
changes boundary values only, never the length. -/
def filtfiltFIR (b : List ℚ) (x : List ℚ) : List ℚ :=
  ((lfilterFIR b (lfilterFIR b x).reverse).reverse)

/-- `FeatExtractor.__call__` (`model.py` lines 47-54): apply the stored FIR
filter along the trailing (time) axis of a 3-D array. -/
def FeatExtractor.call (fe : FeatExtractor) (data : List (List (List ℚ))) :
    List (List (List ℚ)) :=
  data.map fun trial => trial.map fun chan => filtfiltFIR fe.b_erp chan

/-- Shape of a 3-D nested-list array: the list of per-channel sample counts of
every trial.  Two arrays with the same `shape3` have identical extents on all
three axes. -/
def shape3 (data : List (List (List ℚ))) : List (List ℕ) :=
  data.map fun trial => trial.map List.length

/-! ## ChannelScaler (`model.py` lines 57-89) -/

/-- The two supported normalization methods of `ChannelScaler.__init__`:
`'channel'` (statistics over the epoch and time axes, `norm_axis = (0, 2)`) and
`'dim'` (statistics over the epoch axis only, `norm_axis = 0`). -/
inductive NormMethod where
  | channel
  | dim
  deriving Repr, DecidableEq

/-- Python `str.lower()`, modelled character by character (`Char.toLower`
maps the ASCII range; the mode tokens compared against are all ASCII). -/
def pyLower (s : String) : String := String.mk (s.data.map Char.toLower)

/-- `ChannelScaler.__init__` (`model.py` lines 58-67): lower-case the mode
string, accept only `'channel'` or `'dim'`, otherwise raise
`KeyError('Unsupported normalization method')` before any fit happens. -/
def mkChannelScaler (norm_method : String) : Except String NormMethod :=
  let m := pyLower norm_method
  if m = "channel" then .ok .channel
  else if m = "dim" then .ok .dim
  else .error "KeyError: Unsupported normalization method"

/-- Mean of a 3-D tensor over the epoch and time axes (`np.mean(X, axis=(0,2))`)
for one channel `c`; the `0, 2` axes of shape `(E, C, T)` hold `E * T` values. -/
def chanMean {E C T : ℕ} (X : Fin E → Fin C → Fin T → ℚ) (c : Fin C) : ℚ :=
  (∑ p : Fin E × Fin T, X p.1 c p.2) / ((E : ℚ) * T)

/-- Population variance over the epoch and time axes for one channel `c`;
`np.std(X, axis=(0,2))` is its nonnegative square root. -/
def chanVar {E C T : ℕ} (X : Fin E → Fin C → Fin T → ℚ) (c : Fin C) : ℚ :=
  (∑ p : Fin E × Fin T, (X p.1 c p.2 - chanMean X c) ^ 2) / ((E : ℚ) * T)

/-- Mean over the epoch axis (`np.mean(X, axis=0)`) for one feature `(c, t)`. -/
def dimMean {E C T : ℕ} (X : Fin E → Fin C → Fin T → ℚ) (c : Fin C) (t : Fin T) : ℚ :=
  (∑ e, X e c t) / (E : ℚ)

/-- Population variance over the epoch axis for one feature `(c, t)`;
`np.std(X, axis=0)` is its nonnegative square root. -/
def dimVar {E C T : ℕ} (X : Fin E → Fin C → Fin T → ℚ) (c : Fin C) (t : Fin T) : ℚ :=
  (∑ e, (X e c t - dimMean X c t) ^ 2) / (E : ℚ)

/-- Fitted state of a `ChannelScaler`: the stored mode and the broadcastable
(keepdims) mean and std arrays `channel_mean_` / `channel_std_`; in `channel`
mode both are constant along the time coordinate. -/
structure ScalerState (C T : ℕ) where
  norm_method : NormMethod
  channel_mean : Fin C → Fin T → ℚ
  channel_std : Fin C → Fin T → ℚ

/-- `ChannelScaler.fit` (`model.py` lines 69-78): store the mean and std over
`norm_axis` with `keepdims=True`.  `np.std` takes a real square root, which is
not rational, so the square-root computation `sqrtQ` is a parameter; theorems
constrain it by `sqrtQ v ^ 2 = v` at the variances actually used. -/
def ChannelScaler.fit (sqrtQ : ℚ → ℚ) (mode : NormMethod) {E C T : ℕ}
    (X : Fin E → Fin C → Fin T → ℚ) : ScalerState C T :=
  match mode with
  | .channel => ⟨.channel, fun c _ => chanMean X c, fun c _ => sqrtQ (chanVar X c)⟩
  | .dim => ⟨.dim, fun c t => dimMean X c t, fun c t => sqrtQ (dimVar X c t)⟩

/-- `ChannelScaler.transform` (`model.py` lines 80-84) as a value-level map:
subtract the stored mean, divide by the stored std, elementwise with
broadcasting.  (The copy/in-place aspect is modelled separately on a heap.) -/
def ScalerState.transform {C T : ℕ} (s : ScalerState C T) {E : ℕ}
    (X : Fin E → Fin C → Fin T → ℚ) : Fin E → Fin C → Fin T → ℚ :=
  fun e c t => (X e c t - s.channel_mean c t) / s.channel_std c t

/-- `ChannelScaler.fit_transform` (`model.py` lines 86-89): fit, then
transform the same data. -/
def ChannelScaler.fit_transform (sqrtQ : ℚ → ℚ) (mode : NormMethod) {E C T : ℕ}
    (X : Fin E → Fin C → Fin T → ℚ) : Fin E → Fin C → Fin T → ℚ :=
  (ChannelScaler.fit sqrtQ mode X).transform X

/-- Concrete epoch tensor for the C4 witness: two epochs, one channel, one
time sample, values `0` and `2`; all its variances equal `1`, so `id` is a
valid square root there. -/
def Xw : Fin 2 → Fin 1 → Fin 1 → ℚ := fun e _ _ => if e = 0 then 0 else 2

/-! ## In-place numpy semantics of `ChannelScaler.transform`
(`model.py` lines 80-84) -/

/-- Heap of 3-D float arrays: a store from references to array values and the
next fresh reference.  References below `next` are the allocated ones. -/
structure Heap3 (E C T : ℕ) where
  mem : ℕ → Fin E → Fin C → Fin T → ℚ
  next : ℕ

/-- Allocate a fresh array holding `v` (`X.copy()` allocates). -/
def Heap3.alloc {E C T : ℕ} (h : Heap3 E C T) (v : Fin E → Fin C → Fin T → ℚ) :
    Heap3 E C T × ℕ :=
  (⟨fun i => if i = h.next then v else h.mem i, h.next + 1⟩, h.next)

/-- Overwrite the array stored at reference `r` (an in-place numpy update). -/
def Heap3.update {E C T : ℕ} (h : Heap3 E C T) (r : ℕ)
    (v : Fin E → Fin C → Fin T → ℚ) : Heap3 E C T :=
  ⟨fun i => if i = r then v else h.mem i, h.next⟩

/-- `ChannelScaler.transform` with its in-place numpy effects made explicit
(`model.py` lines 80-84): `X = X.copy()` allocates a fresh array with the
input's contents, `X -= self.channel_mean_` and `X /= self.channel_std_`
mutate that copy in place, and the copy's reference is returned together with
the (untouched) scaler state and the final heap. -/
def scalerTransformHeap {E C T : ℕ} (s : ScalerState C T) (h : Heap3 E C T)
    (x : ℕ) : ScalerState C T × Heap3 E C T × ℕ :=
  let ar := h.alloc (h.mem x)
  let h1 := ar.1
  let r := ar.2
  let h2 := h1.update r (fun e c t => h1.mem r e c t - s.channel_mean c t)
  let h3 := h2.update r (fun e c t => h2.mem r e c t / s.channel_std c t)
  (s, h3, r)

/-! ## The `Model.ch_ind` property (`model.py` lines 125-133) -/

/-- Heap of 1-D integer arrays (channel-index arrays): a store from references
to array contents. -/
structure IntHeap where
  mem : ℕ → List ℤ
  next : ℕ

/-- The parts of a `Model` the `ch_ind` property touches, at reference level:
`_ch_ind` holds a reference to an array (or nothing before any assignment),
and `data_dict` maps string keys to references (a Python dict holds object
references, not copies). -/
structure ModelRefs where
  ch_ind : Option ℕ
  data_dict : String → Option ℕ

/-- The `ch_ind` setter (`model.py` lines 129-133): `value.sort()` sorts the
caller's array in place (ascending), then the same reference is stored in
`_ch_ind` and under `data_dict['ind_ch_scores']`. -/
def chIndSet (m : ModelRefs) (h : IntHeap) (value : ℕ) : ModelRefs × IntHeap :=
  let h' : IntHeap :=
    ⟨fun i => if i = value then List.insertionSort (· ≤ ·) (h.mem value)
      else h.mem i, h.next⟩
  (⟨some value, fun k => if k = "ind_ch_scores" then some value else m.data_dict k⟩, h')

/-- The `ch_ind` getter (`model.py` lines 125-127), dereferenced to the array
contents it exposes. -/
def chIndGet (m : ModelRefs) (h : IntHeap) : Option (List ℤ) :=
  m.ch_ind.map h.mem

/-! ## Epoch segmenter: `Model.raw2epoch` (`model.py` lines 167-193)

The helpers `utils.cut_epochs`, `utils.sort_epochs`, `utils.apply_baseline`
and `utils.timewindow` live in `Offline/utils.py`, which is not part of the
available source; they are modelled from the spec (section 4.3). -/

/-- External configuration read by `raw2epoch` (`cfg.subj_info.type`,
`cfg.off_config.start/end/time_window/downsamp`, `cfg.amp_info.samplerate`).
Times are in seconds relative to the event timestamp. -/
structure OffConfig where
  subj_type : String
  start : ℚ
  stop : ℚ
  samplerate : ℕ
  win_lo : ℚ
  win_hi : ℚ
  downsamp : ℕ

/-- Read a channel at a signed sample index, `0` outside the recording. -/
def getSample (chan : List ℚ) (i : ℤ) : ℚ :=
  if 0 ≤ i then chan.getD i.toNat 0 else 0

/-- Modelled from the spec: `utils.cut_epochs` (not under `src/`).  Cut a
fixed-length window `[s0, s1)` of samples (offsets relative to each
timestamp) around every timestamp, producing one epoch per timestamp with
every raw channel. -/
def cut_epochs (s0 s1 : ℤ) (raw : List (List ℚ)) (timestamps : List ℕ) :
    List (List (List ℚ)) :=
  timestamps.map fun (ts : ℕ) => raw.map fun chan =>
    (List.range (s1 - s0).toNat).map fun (k : ℕ) =>
      getSample chan (Int.ofNat ts + s0 + Int.ofNat k)

/-- Modelled from the spec: `utils.sort_epochs` (not under `src/`).  Reorder
the epochs so that their ordering matches the row-major (trial-major)
flattening of the event matrix: the output epoch at flat position
`i * reps + j` is the input epoch of trial `i` whose within-trial arrival
index is `events[i][j]`. -/
def sort_epochs (epochs : List (List (List ℚ))) (events : List (List ℕ)) :
    List (List (List ℚ)) :=
  let reps := (events.headD []).length
  (List.range (events.length * reps)).map fun k =>
    epochs.getD ((k / reps) * reps + (events.getD (k / reps) []).getD (k % reps) 0) []

/-- `scipy.signal.detrend(..., type='linear')` on one channel: subtract the
least-squares straight line fitted to the samples. -/
def detrendLinear (xs : List ℚ) : List ℚ :=
  let n : ℚ := xs.length
  let tbar : ℚ := (n - 1) / 2
  let xbar : ℚ := xs.sum / n
  let sxx : ℚ := ((List.range xs.length).map fun t => ((t : ℚ) - tbar) ^ 2).sum
  let sxy : ℚ := (xs.enum.map fun p => ((p.1 : ℚ) - tbar) * (p.2 - xbar)).sum
  let slope := sxy / sxx
  xs.enum.map fun p => p.2 - (xbar + slope * ((p.1 : ℚ) - tbar))

/-- Modelled from the spec: the per-channel core of `utils.apply_baseline`
(not under `src/`): subtract the mean of the first `nb` samples (the
pre-onset portion of the cut window; the spec flags this reference window as
an assumption). -/
def baselineChan (nb : ℕ) (chan : List ℚ) : List ℚ :=
  let b := (chan.take nb).sum / (nb : ℚ)
  chan.map fun v => v - b

/-- `epochs[..., ::r]`: keep every `r`-th sample of a channel. -/
def strideSlice (r : ℕ) (chan : List ℚ) : List ℚ :=
  ((List.range chan.length).filter fun i => i % r = 0).map fun i => chan.getD i 0

/-- `signal.detrend(epochs, axis=-1, type='linear')` on the 3-D tensor. -/
def detrend3 (epochs : List (List (List ℚ))) : List (List (List ℚ)) :=
  epochs.map fun ep => ep.map detrendLinear

/-- Modelled from the spec: `utils.apply_baseline` on the 3-D tensor. -/
def apply_baseline (nb : ℕ) (epochs : List (List (List ℚ))) :
    List (List (List ℚ)) :=
  epochs.map fun ep => ep.map (baselineChan nb)

/-- Modelled from the spec: `utils.timewindow` (not under `src/`): slice the
time axis to the analysis window, sample indices `[i0, i1)` relative to the
cut window. -/
def timewindow3 (i0 i1 : ℕ) (epochs : List (List (List ℚ))) :
    List (List (List ℚ)) :=
  epochs.map fun ep => ep.map fun chan => (chan.drop i0).take (i1 - i0)

/-- Downsampling step of `raw2epoch` (`model.py` lines 191-192):
`epochs[..., ::down_ratio]` on the 3-D tensor. -/
def downsamp3 (r : ℕ) (epochs : List (List (List ℚ))) :
    List (List (List ℚ)) :=
  epochs.map fun ep => ep.map (strideSlice r)

/-- Sample offset of the cut-window start relative to the timestamp. -/
def cutLo (cfg : OffConfig) : ℤ := ⌊cfg.start * cfg.samplerate⌋

/-- Sample offset of the cut-window end relative to the timestamp. -/
def cutHi (cfg : OffConfig) : ℤ := ⌊cfg.stop * cfg.samplerate⌋

/-- First sample (relative to the cut window) of the analysis time window. -/
def winLoIdx (cfg : OffConfig) : ℕ := ⌊(cfg.win_lo - cfg.start) * cfg.samplerate⌋.toNat

/-- One past the last sample of the analysis time window. -/
def winHiIdx (cfg : OffConfig) : ℕ := ⌊(cfg.win_hi - cfg.start) * cfg.samplerate⌋.toNat

/-- `Model.raw2epoch` (`model.py` lines 167-193): for the `'eeg'` recording
type, cut epochs around the timestamps, sort them against the event matrix,
detrend, baseline-correct, re-window to the analysis window and downsample by
`int(samplerate / downsamp)`; any other recording type raises
`KeyError('Unsupported recording type.')`. -/
def raw2epoch (cfg : OffConfig) (raw : List (List ℚ)) (timestamps : List ℕ)
    (events : List (List ℕ)) : Except String (List (List (List ℚ))) :=
  if cfg.subj_type = "eeg" then
    let epochs := cut_epochs (cutLo cfg) (cutHi cfg) raw timestamps
    let epochs := sort_epochs epochs events
    let epochs := detrend3 epochs
    let epochs := apply_baseline (0 - cutLo cfg).toNat epochs
    let epochs := timewindow3 (winLoIdx cfg) (winHiIdx cfg) epochs
    .ok (downsamp3 (cfg.samplerate / cfg.downsamp) epochs)
  else
    .error "KeyError: Unsupported recording type."

/-- The whole post-sort processing of one epoch's channel: detrend, subtract
the baseline, slice the analysis window, downsample. -/
def perChan (cfg : OffConfig) (chan : List ℚ) : List ℚ :=
  strideSlice (cfg.samplerate / cfg.downsamp)
    (((baselineChan (0 - cutLo cfg).toNat (detrendLinear chan)).drop (winLoIdx cfg)).take
      (winHiIdx cfg - winLoIdx cfg))

/-- The whole post-sort processing of one epoch (channelwise `perChan`). -/
def perEpoch (cfg : OffConfig) (ep : List (List ℚ)) : List (List ℚ) :=
  ep.map (perChan cfg)

/-- Concrete configuration for the C2 witness: `'eeg'`, cut window `[0s, 1s]`
at 2 Hz, analysis window `[0s, 1s]`, downsample target 1 Hz. -/
def cfgW : OffConfig := ⟨"eeg", 0, 1, 2, 0, 1, 1⟩

/-- Concrete raw recording for the C2 witness: one channel, four samples. -/
def rawW : List (List ℚ) := [[1, 2, 3, 4]]

/-- Concrete event matrix for the C2 witness: two trials, one repetition. -/
def evW : List (List ℕ) := [[0], [0]]

/-! ## Model wrapper: construction, fit, decision_function, dump
(`model.py` lines 92-152 and 195-201)

The fitted sklearn pipeline is an opaque external artifact; it is a type
parameter `P`, and `joblib.dump`/`joblib.load` and `np.savez`/`np.load` are
modelled as a faithful store: a file system mapping paths (segment lists, as
built by `os.path.join`) to file contents. -/

/-- Contents of a persisted artifact: a `coef.npz` named-array archive or a
pickled pipeline blob. -/
inductive FileContent (P : Type) where
  | npz (d : List (String × List ℤ))
  | pkl (p : P)

/-- File system: a map from paths to file contents. -/
structure FS (P : Type) where
  files : List String → Option (FileContent P)

/-- Write (create or overwrite) one file. -/
def FS.write {P : Type} (fs : FS P) (path : List String) (c : FileContent P) :
    FS P :=
  ⟨fun q => if q = path then some c else fs.files q⟩

/-- `os.path.dirname(__file__) + '/../data/' + subject`, as a path segment. -/
def subjPath (subject : String) : String := "data/" ++ subject

/-- Lookup in a string-keyed association list (a Python dict read). -/
def lookupDict (d : List (String × List ℤ)) (k : String) : Option (List ℤ) :=
  (d.find? fun p => p.1 == k).map fun p => p.2

/-- Overwrite-or-append update of a string-keyed association list
(a Python dict write). -/
def dictUpd (d : List (String × List ℤ)) (k : String) (v : List ℤ) :
    List (String × List ℤ) :=
  if (d.find? fun p => p.1 == k).isSome then
    d.map fun p => if p.1 == k then (k, v) else p
  else d ++ [(k, v)]

/-- State of a `Model` wrapper (value view): storage location, mode, the
auxiliary coefficient store `data_dict`, the pipeline `__cls` and `_ch_ind`. -/
structure Model (P : Type) where
  subj_path : String
  date : String
  mode : String
  data_dict : List (String × List ℤ)
  cls : P
  ch_ind : Option (List ℤ)

/-- `Model.__init__` (`model.py` lines 93-123) with explicit subject and date
(the `None` defaults delegate to the excluded config/session-discovery
collaborators).  The mode string is lower-cased and must be `train` or `test`.
In `test` mode the coefficient archive `coef.npz` is loaded (np.load of a
missing file raises), then the pickled pipeline `model.pkl`, then `_ch_ind`
is read from the archive under `'ind_ch_scores'` (raising `KeyError` when
absent).  In `train` mode the store starts empty and a fresh unfit pipeline
is built (hyperparameters `C`, `n_components` live inside `freshPipeline`). -/
def mkModel (P : Type) (freshPipeline : P) (subject date mode : String)
    (fs : FS P) : Except String (Model P) :=
  let m := pyLower mode
  if m = "train" then
    .ok ⟨subjPath subject, date, m, [], freshPipeline, none⟩
  else if m = "test" then
    match fs.files [subjPath subject, date, "coef.npz"] with
    | some (.npz d) =>
      match fs.files [subjPath subject, date, "model.pkl"] with
      | some (.pkl p) =>
        match lookupDict d "ind_ch_scores" with
        | some v => .ok ⟨subjPath subject, date, m, d, p, some v⟩
        | none => .error "KeyError: ind_ch_scores"
      | _ => .error "FileNotFoundError: model.pkl"
    | _ => .error "FileNotFoundError: coef.npz"
  else .error "AssertionError: mode not in [train, test]"

/-- `Model.fit` (`model.py` lines 135-143): delegate to the pipeline's `fit`,
an external computation `fitE` producing the fitted pipeline. -/
def Model.fit {P α β : Type} (fitE : P → α → β → P) (m : Model P) (X : α)
    (y : β) : Model P :=
  { m with cls := fitE m.cls X y }

/-- `Model.decision_function` (`model.py` lines 145-152): run the stored
pipeline (its `decision_function` is the external `applyP`). -/
def Model.decision_function {P α γ : Type} (applyP : P → α → γ) (m : Model P)
    (X : α) : γ :=
  applyP m.cls X

/-- Value view of the `ch_ind` setter (`model.py` lines 129-133): sort
ascending, store in `_ch_ind` and mirror under `data_dict['ind_ch_scores']`
(the aliasing aspect is modelled separately on a heap by `chIndSet`). -/
def Model.set_ch_ind {P : Type} (m : Model P) (value : List ℤ) : Model P :=
  let v := List.insertionSort (· ≤ ·) value
  { m with ch_ind := some v, data_dict := dictUpd m.data_dict "ind_ch_scores" v }

/-- `Model.dump` (`model.py` lines 195-201): write `coef.npz` only when the
coefficient store is non-empty (`if self.data_dict:`), and write `model.pkl`
(the pipeline `__cls` is never `None`: both constructor branches set it). -/
def Model.dump {P : Type} (m : Model P) (fs : FS P) : FS P :=
  let fs1 := if m.data_dict.isEmpty then fs
    else fs.write [m.subj_path, m.date, "coef.npz"] (.npz m.data_dict)
  fs1.write [m.subj_path, m.date, "model.pkl"] (.pkl m.cls)

theorem lfilterFIR_length (b x : List ℚ) : (lfilterFIR b x).length = x.length := by
  simp [lfilterFIR]

theorem filtfiltFIR_length (b x : List ℚ) :
    (filtfiltFIR b x).length = x.length := by
  simp [filtfiltFIR, lfilterFIR_length]

/-- C3: a `FeatExtractor` built without an explicit order uses an FIR filter
of order `⌊sfreq/5⌋` (i.e. `⌊sfreq/5⌋ + 1` taps); a one-value band is built
with `pass_zero = true` (lowpass), a two-value band with `pass_zero = false`
(bandpass); applying the extractor filters along the trailing axis and
preserves the shape of the input array. -/
theorem featextractor_design_and_shape (firwin : FirDesign → List ℚ)
    (sfreq : ℕ) (band : List ℚ) (fe : FeatExtractor)
    (h : mkFeatExtractor firwin sfreq (some band) none = .ok fe) :
    fe.design.numtaps = sfreq / 5 + 1 ∧
    (band.length = 1 → fe.design.pass_zero = true) ∧
    (band.length = 2 → fe.design.pass_zero = false) ∧
    ∀ data : List (List (List ℚ)), shape3 (fe.call data) = shape3 data := by
  have hfe : fe = ⟨sfreq, band,
      if band.length = 1 then ⟨sfreq / 5 + 1, band, (sfreq : ℚ), true⟩
      else ⟨sfreq / 5 + 1, band, (sfreq : ℚ), false⟩,
      firwin (if band.length = 1 then ⟨sfreq / 5 + 1, band, (sfreq : ℚ), true⟩
      else ⟨sfreq / 5 + 1, band, (sfreq : ℚ), false⟩)⟩ := by
    simpa [mkFeatExtractor, Except.ok.injEq] using h.symm
  subst hfe
  refine ⟨?_, ?_, ?_, ?_⟩
  · by_cases h1 : band.length = 1 <;> simp [h1]
  · intro h1; simp [h1]
  · intro h2
    have h1 : ¬ band.length = 1 := by omega
    simp [h1]
  · intro data
    simp [FeatExtractor.call, shape3, filtfiltFIR_length]

/-- Witness for C3 at a concrete input: `sfreq = 250`, band `[0.5, 10]`,
no explicit order. -/
theorem featextractor_design_and_shape_witness :
    ∃ fe, mkFeatExtractor (fun _ => []) 250 (some [1/2, 10]) none = .ok fe ∧
      (fe.design.numtaps = 250 / 5 + 1 ∧
       ([(1:ℚ)/2, 10].length = 1 → fe.design.pass_zero = true) ∧
       ([(1:ℚ)/2, 10].length = 2 → fe.design.pass_zero = false) ∧
       ∀ data : List (List (List ℚ)), shape3 (fe.call data) = shape3 data) := by
  refine ⟨⟨250, [1/2, 10], ⟨51, [1/2, 10], 250, false⟩, []⟩, rfl, ?_⟩
  exact featextractor_design_and_shape (fun _ => []) 250 [1/2, 10] _ rfl

/-- C8: constructing a `FeatExtractor` without a band fails immediately
(the `assert band_erp is not None` on line 32), and every successful
construction was given a band. -/
theorem featextractor_band_required (firwin : FirDesign → List ℚ) :
    (∀ (sfreq : ℕ) (n : Option ℕ),
      mkFeatExtractor firwin sfreq none n = .error "AssertionError: band_erp is None") ∧
    (∀ (sfreq : ℕ) (band : Option (List ℚ)) (n : Option ℕ) (fe : FeatExtractor),
      mkFeatExtractor firwin sfreq band n = .ok fe → band ≠ none) := by
  constructor
  · intro sfreq n; rfl
  · intro sfreq band n fe h hnone
    subst hnone
    exact absurd h (by simp [mkFeatExtractor])

/-- Witness for C8 at concrete inputs: no band fails; a successful
construction (`sfreq = 250`, band `[10]`) indeed had a band. -/
theorem featextractor_band_required_witness :
    mkFeatExtractor (fun _ => []) 250 none none
      = .error "AssertionError: band_erp is None" ∧
    (some [(10 : ℚ)] : Option (List ℚ)) ≠ none := by
  constructor
  · exact (featextractor_band_required (fun _ => [])).1 250 none
  · exact (featextractor_band_required (fun _ => [])).2 250 (some [10]) none
      ⟨250, [10], ⟨51, [10], 250, true⟩, []⟩ rfl

/-- C6: any mode string whose lower-casing is neither `'channel'` nor `'dim'`
makes `ChannelScaler` construction fail with the configuration error (the
check runs in `__init__`, before any fit call), and any string differing from
`'channel'` or `'dim'` only in case is accepted. -/
theorem channelscaler_mode_check :
    (∀ m : String, pyLower m ≠ "channel" → pyLower m ≠ "dim" →
      mkChannelScaler m = .error "KeyError: Unsupported normalization method") ∧
    (∀ m : String, pyLower m = "channel" ∨ pyLower m = "dim" →
      ∃ mode, mkChannelScaler m = .ok mode) := by
  constructor
  · intro m h1 h2
    simp [mkChannelScaler, h1, h2]
  · intro m h
    rcases h with h | h
    · exact ⟨.channel, by simp [mkChannelScaler, h]⟩
    · exact ⟨.dim, by simp [mkChannelScaler, h]⟩

/-- Witness for C6 at concrete inputs: `"bogus"` is rejected, the case
variants `"ChAnNeL"` and `"DIM"` are accepted. -/
theorem channelscaler_mode_check_witness :
    mkChannelScaler "bogus" = .error "KeyError: Unsupported normalization method" ∧
    (∃ mode, mkChannelScaler "ChAnNeL" = .ok mode) ∧
    (∃ mode, mkChannelScaler "DIM" = .ok mode) := by
  refine ⟨channelscaler_mode_check.1 "bogus" (by decide) (by decide),
    channelscaler_mode_check.2 "ChAnNeL" (Or.inl (by decide)),
    channelscaler_mode_check.2 "DIM" (Or.inr (by decide))⟩

theorem std_mean_zero {ι : Type} [Fintype ι] (g : ι → ℚ) (σ : ℚ)
    (hn : (Fintype.card ι : ℚ) ≠ 0) :
    (∑ i, (g i - (∑ j, g j) / (Fintype.card ι)) / σ) / (Fintype.card ι) = 0 := by
  set n : ℚ := (Fintype.card ι : ℚ) with hn'
  set μ : ℚ := (∑ j, g j) / n with hμ
  have h1 : ∑ i, (g i - μ) = 0 := by
    rw [Finset.sum_sub_distrib, Finset.sum_const, Finset.card_univ]
    rw [hμ]
    field_simp
  rw [← Finset.sum_div, h1]
  simp

theorem std_var_one {ι : Type} [Fintype ι] (g : ι → ℚ) (σ : ℚ)
    (hn : (Fintype.card ι : ℚ) ≠ 0)
    (hσ2 : σ ^ 2 = (∑ i, (g i - (∑ j, g j) / (Fintype.card ι)) ^ 2) / (Fintype.card ι))
    (hσ : σ ≠ 0) :
    (∑ i, ((g i - (∑ j, g j) / (Fintype.card ι)) / σ -
        (∑ i, (g i - (∑ j, g j) / (Fintype.card ι)) / σ) / (Fintype.card ι)) ^ 2) /
      (Fintype.card ι) = 1 := by
  have h0 := std_mean_zero g σ hn
  rw [h0]
  have hsum : ∑ i, (g i - (∑ j, g j) / (Fintype.card ι)) ^ 2 = σ ^ 2 * (Fintype.card ι) := by
    rw [hσ2]; field_simp
  have hdp : ∀ i : ι, ((g i - (∑ j, g j) / (Fintype.card ι)) / σ - 0) ^ 2
      = (g i - (∑ j, g j) / (Fintype.card ι)) ^ 2 / σ ^ 2 := by
    intro i; rw [sub_zero, div_pow]
  rw [Finset.sum_congr rfl (fun i _ => hdp i), ← Finset.sum_div, hsum]
  field_simp

/-- C4: on a nonempty epoch tensor whose per-channel (resp. per-feature)
standard deviations are nonzero, `fit_transform` in `channel` mode yields, for
every channel, mean `0` and variance `1` over the epoch and time axes, and in
`dim` mode, for every feature `(c, t)`, mean `0` and variance `1` over the
epoch axis.  The standard deviation is the nonnegative square root of the
variance, so variance `1` states exactly that the standard deviation is `1`;
`sqrtQ` plays the role of `np.sqrt`, constrained to square back to the
variance and to be nonzero (nonzero std hypothesis of the claim). -/
theorem channelscaler_fit_transform_standardizes {E C T : ℕ}
    (sqrtQ : ℚ → ℚ) (X : Fin E → Fin C → Fin T → ℚ) (hE : 0 < E) (hT : 0 < T)
    (hch : ∀ c, sqrtQ (chanVar X c) ^ 2 = chanVar X c ∧ sqrtQ (chanVar X c) ≠ 0)
    (hdim : ∀ c t, sqrtQ (dimVar X c t) ^ 2 = dimVar X c t ∧ sqrtQ (dimVar X c t) ≠ 0) :
    (∀ c, chanMean (ChannelScaler.fit_transform sqrtQ .channel X) c = 0 ∧
          chanVar (ChannelScaler.fit_transform sqrtQ .channel X) c = 1) ∧
    (∀ c t, dimMean (ChannelScaler.fit_transform sqrtQ .dim X) c t = 0 ∧
            dimVar (ChannelScaler.fit_transform sqrtQ .dim X) c t = 1) := by
  have hcardET : ((E : ℚ) * T) = ((Fintype.card (Fin E × Fin T) : ℕ) : ℚ) := by
    simp
  have hcardE : ((E : ℚ)) = ((Fintype.card (Fin E) : ℕ) : ℚ) := by simp
  have hET : ((Fintype.card (Fin E × Fin T) : ℕ) : ℚ) ≠ 0 := by
    simp only [Fintype.card_prod, Fintype.card_fin]
    push_cast
    have : (0 : ℚ) < (E : ℚ) * T := by
      have hE' : (0 : ℚ) < E := by exact_mod_cast hE
      have hT' : (0 : ℚ) < T := by exact_mod_cast hT
      exact mul_pos hE' hT'
    exact ne_of_gt this
  have hEne : ((Fintype.card (Fin E) : ℕ) : ℚ) ≠ 0 := by
    simp only [Fintype.card_fin]
    exact_mod_cast hE.ne'
  constructor
  · intro c
    obtain ⟨hs2, hs0⟩ := hch c
    constructor
    · show (∑ p : Fin E × Fin T,
          (X p.1 c p.2 - chanMean X c) / sqrtQ (chanVar X c)) / ((E : ℚ) * T) = 0
      simp only [chanMean, hcardET]
      exact std_mean_zero (fun p : Fin E × Fin T => X p.1 c p.2) _ hET
    · have h2 := hs2
      simp only [chanMean, chanVar, ChannelScaler.fit_transform, ChannelScaler.fit,
        ScalerState.transform, hcardET] at h2 hs0 ⊢
      exact std_var_one (fun p : Fin E × Fin T => X p.1 c p.2) _ hET h2 hs0
  · intro c t
    obtain ⟨hs2, hs0⟩ := hdim c t
    constructor
    · show (∑ e, (X e c t - dimMean X c t) / sqrtQ (dimVar X c t)) / (E : ℚ) = 0
      simp only [dimMean, hcardE]
      exact std_mean_zero (fun e : Fin E => X e c t) _ hEne
    · have h2 := hs2
      simp only [dimMean, dimVar, ChannelScaler.fit_transform, ChannelScaler.fit,
        ScalerState.transform, hcardE] at h2 hs0 ⊢
      exact std_var_one (fun e : Fin E => X e c t) _ hEne h2 hs0

/-- Witness for C4 at `Xw` with `sqrtQ = id`. -/
theorem channelscaler_fit_transform_standardizes_witness :
    (0 : ℕ) < 2 ∧ (0 : ℕ) < 1 ∧
    ((∀ c, chanMean (ChannelScaler.fit_transform id .channel Xw) c = 0 ∧
           chanVar (ChannelScaler.fit_transform id .channel Xw) c = 1) ∧
     (∀ c t, dimMean (ChannelScaler.fit_transform id .dim Xw) c t = 0 ∧
             dimVar (ChannelScaler.fit_transform id .dim Xw) c t = 1)) := by
  refine ⟨by decide, by decide,
    channelscaler_fit_transform_standardizes id Xw (by decide) (by decide) ?_ ?_⟩
  · intro c
    have hc : chanVar Xw c = 1 := by
      have h0 : c = 0 := Subsingleton.elim c 0
      subst h0
      norm_num [chanVar, chanMean, Xw, Fintype.sum_prod_type, Fin.sum_univ_succ]
    rw [hc]
    exact ⟨by norm_num, by norm_num⟩
  · intro c t
    have hc : dimVar Xw c t = 1 := by
      have h0 : c = 0 := Subsingleton.elim c 0
      have h1 : t = 0 := Subsingleton.elim t 0
      subst h0; subst h1
      norm_num [dimVar, dimMean, Xw, Fin.sum_univ_succ]
    rw [hc]
    exact ⟨by norm_num, by norm_num⟩

/-- C9: for any fitted scaler state and any allocated input array `x`,
`transform` returns a freshly allocated array holding
`(X - stored mean) / stored std`, leaves the input array's contents unchanged,
and returns the scaler state (stored mean and std) unchanged. -/
theorem channelscaler_transform_pure {E C T : ℕ} (s : ScalerState C T)
    (h : Heap3 E C T) (x : ℕ) (hx : x < h.next) :
    (scalerTransformHeap s h x).1 = s ∧
    (scalerTransformHeap s h x).2.1.mem x = h.mem x ∧
    (scalerTransformHeap s h x).2.2 ≠ x ∧
    (scalerTransformHeap s h x).2.1.mem (scalerTransformHeap s h x).2.2
      = fun e c t => (h.mem x e c t - s.channel_mean c t) / s.channel_std c t := by
  have hne : x ≠ h.next := Nat.ne_of_lt hx
  refine ⟨rfl, ?_, ?_, ?_⟩
  · simp [scalerTransformHeap, Heap3.alloc, Heap3.update, hne]
  · simp [scalerTransformHeap, Heap3.alloc, Heap3.update]
    omega
  · funext e c t
    simp [scalerTransformHeap, Heap3.alloc, Heap3.update, hne]

/-- Witness for C9 on a one-element heap holding the constant array `5`,
with stored mean `2` and std `3`. -/
theorem channelscaler_transform_pure_witness :
    (0 : ℕ) < 1 ∧
    ((scalerTransformHeap (E := 1) (C := 1) (T := 1) ⟨.channel, fun _ _ => 2, fun _ _ => 3⟩
        ⟨fun _ _ _ _ => 5, 1⟩ 0).1 = ⟨.channel, fun _ _ => 2, fun _ _ => 3⟩ ∧
     (scalerTransformHeap (E := 1) (C := 1) (T := 1) ⟨.channel, fun _ _ => 2, fun _ _ => 3⟩
        ⟨fun _ _ _ _ => 5, 1⟩ 0).2.1.mem 0 = (⟨fun _ _ _ _ => 5, 1⟩ : Heap3 1 1 1).mem 0 ∧
     (scalerTransformHeap (E := 1) (C := 1) (T := 1) ⟨.channel, fun _ _ => 2, fun _ _ => 3⟩
        ⟨fun _ _ _ _ => 5, 1⟩ 0).2.2 ≠ 0 ∧
     (scalerTransformHeap (E := 1) (C := 1) (T := 1) ⟨.channel, fun _ _ => 2, fun _ _ => 3⟩
        ⟨fun _ _ _ _ => 5, 1⟩ 0).2.1.mem
       (scalerTransformHeap (E := 1) (C := 1) (T := 1) ⟨.channel, fun _ _ => 2, fun _ _ => 3⟩
        ⟨fun _ _ _ _ => 5, 1⟩ 0).2.2
       = fun e c t => ((⟨fun _ _ _ _ => 5, 1⟩ : Heap3 1 1 1).mem 0 e c t - 2) / 3) :=
  ⟨by decide,
   channelscaler_transform_pure ⟨.channel, fun _ _ => 2, fun _ _ => 3⟩
     ⟨fun _ _ _ _ => 5, 1⟩ 0 (by decide)⟩

/-- C10: the `ch_ind` setter sorts the caller's array in place (the heap cell
passed in now holds the sorted contents), and stores that same reference —
not a copy — both as `_ch_ind` and as `data_dict['ind_ch_scores']`, so the
caller's array and the two stored views alias one object. -/
theorem ch_ind_setter_aliases (m : ModelRefs) (h : IntHeap) (value : ℕ) :
    (chIndSet m h value).2.mem value = List.insertionSort (· ≤ ·) (h.mem value) ∧
    (chIndSet m h value).1.ch_ind = some value ∧
    (chIndSet m h value).1.data_dict "ind_ch_scores" = some value := by
  refine ⟨?_, rfl, rfl⟩
  simp [chIndSet]

/-- C5: after any assignment to `ch_ind`, the value read back through the
property is sorted ascending, and the coefficient-store entry under
`'ind_ch_scores'` dereferences to that same value: the two views are
consistent. -/
theorem ch_ind_sorted_and_mirrored (m : ModelRefs) (h : IntHeap) (value : ℕ) :
    ∃ l, chIndGet (chIndSet m h value).1 (chIndSet m h value).2 = some l ∧
      List.Sorted (· ≤ ·) l ∧
      ((chIndSet m h value).1.data_dict "ind_ch_scores").map
        (chIndSet m h value).2.mem = some l := by
  refine ⟨List.insertionSort (· ≤ ·) (h.mem value), ?_, ?_, ?_⟩
  · simp [chIndGet, chIndSet]
  · exact List.sorted_insertionSort _ _
  · simp [chIndSet]

/-- C7: for any configured recording type other than `'eeg'`, `raw2epoch`
raises the unsupported-type error and produces no epoch tensor. -/
theorem raw2epoch_unsupported_type (cfg : OffConfig) (raw : List (List ℚ))
    (timestamps : List ℕ) (events : List (List ℕ))
    (h : cfg.subj_type ≠ "eeg") :
    raw2epoch cfg raw timestamps events
      = .error "KeyError: Unsupported recording type." := by
  simp [raw2epoch, h]

/-- Witness for C7 with recording type `'meg'`. -/
theorem raw2epoch_unsupported_type_witness :
    raw2epoch ⟨"meg", -1/5, 4/5, 1000, 0, 1/2, 250⟩ [] [] []
      = .error "KeyError: Unsupported recording type." :=
  raw2epoch_unsupported_type ⟨"meg", -1/5, 4/5, 1000, 0, 1/2, 250⟩ [] [] []
    (by decide)

theorem map_getD_default {α β : Type} (f : α → β) (l : List α) (k : ℕ)
    (da : α) (db : β) (hf : f da = db) : (l.map f).getD k db = f (l.getD k da) := by
  simp only [List.getD_eq_getElem?_getD, List.getElem?_map]
  cases l[k]? <;> simp [hf]

theorem map_getD_lt {α β : Type} (f : α → β) (l : List α) (k : ℕ) (da : α)
    (db : β) (h : k < l.length) : (l.map f).getD k db = f (l.getD k da) := by
  simp only [List.getD_eq_getElem?_getD, List.getElem?_map,
    List.getElem?_eq_getElem h, List.getElem?_eq_getElem (by simpa using h :
      k < (l.map f).length)]
  simp [List.getD_eq_getElem?_getD, List.getElem?_eq_getElem h]

theorem range_map_getD {β : Type} (n k : ℕ) (f : ℕ → β) (d : β) (hk : k < n) :
    ((List.range n).map f).getD k d = f k := by
  simp only [List.getD_eq_getElem?_getD, List.getElem?_map, List.getElem?_range hk]
  rfl

theorem getD_mem_of_lt {α : Type} (l : List α) (k : ℕ) (d : α)
    (h : k < l.length) : l.getD k d ∈ l := by
  simp only [List.getD_eq_getElem?_getD, List.getElem?_eq_getElem h, Option.getD_some]
  exact List.getElem_mem h

theorem cut_epochs_length (s0 s1 : ℤ) (raw : List (List ℚ)) (ts : List ℕ) :
    (cut_epochs s0 s1 raw ts).length = ts.length := by
  unfold cut_epochs
  rw [List.length_map]

theorem cut_epochs_getD_length (s0 s1 : ℤ) (raw : List (List ℚ)) (ts : List ℕ)
    (k : ℕ) (hk : k < ts.length) :
    ((cut_epochs s0 s1 raw ts).getD k []).length = raw.length := by
  unfold cut_epochs
  rw [map_getD_lt _ ts k 0 [] hk, List.length_map]

theorem sort_epochs_length (eps : List (List (List ℚ))) (events : List (List ℕ)) :
    (sort_epochs eps events).length
      = events.length * (events.headD []).length := by
  simp [sort_epochs]

theorem sort_epochs_getD (eps : List (List (List ℚ))) (events : List (List ℕ))
    (reps i j : ℕ) (hreps : 0 < reps) (hhead : (events.headD []).length = reps)
    (hi : i < events.length) (hj : j < reps) :
    (sort_epochs eps events).getD (i * reps + j) []
      = eps.getD (i * reps + (events.getD i []).getD j 0) [] := by
  have hk : i * reps + j < events.length * reps := by
    have h1 : i * reps + j < (i + 1) * reps := by
      have : (i + 1) * reps = i * reps + reps := by ring
      omega
    have h2 : (i + 1) * reps ≤ events.length * reps :=
      Nat.mul_le_mul_right reps (by omega)
    omega
  have hdiv : (i * reps + j) / reps = i := by
    rw [Nat.add_comm, Nat.add_mul_div_right j i hreps, Nat.div_eq_of_lt hj,
      Nat.zero_add]
  have hmod : (i * reps + j) % reps = j := by
    rw [Nat.add_comm, Nat.add_mul_mod_self_right, Nat.mod_eq_of_lt hj]
  unfold sort_epochs
  rw [hhead, range_map_getD _ _ _ _ hk, hdiv, hmod]

theorem stages_eq_map_perEpoch (cfg : OffConfig) (eps : List (List (List ℚ))) :
    downsamp3 (cfg.samplerate / cfg.downsamp)
      (timewindow3 (winLoIdx cfg) (winHiIdx cfg)
        (apply_baseline (0 - cutLo cfg).toNat (detrend3 eps)))
      = eps.map (perEpoch cfg) := by
  simp only [downsamp3, timewindow3, apply_baseline, detrend3, perEpoch, perChan,
    List.map_map, Function.comp_def]
  exact List.map_congr_left fun ep _ => rfl

/-- C2 (the deciding helpers `utils.cut_epochs`, `utils.sort_epochs`,
`utils.apply_baseline`, `utils.timewindow` are modelled from the spec): on the
supported `'eeg'` type, for raw data with `C` channels, `E` timestamps and a
`trials × reps` event matrix with `trials * reps = E` (entries indexing within
a trial), `raw2epoch` succeeds, applies exactly the steps cut, sort, detrend,
baseline-correct, re-window, downsample in that order, returns `E` epochs,
each with `C` channels, and epoch `i * reps + j` is the processed cut epoch
selected by event-matrix entry `(i, j)` — trial-major ordering. -/
theorem raw2epoch_shape_and_order (cfg : OffConfig) (raw : List (List ℚ))
    (timestamps : List ℕ) (events : List (List ℕ)) (trials reps : ℕ)
    (htype : cfg.subj_type = "eeg")
    (htr : events.length = trials)
    (hrow : ∀ row ∈ events, row.length = reps)
    (hreps : 0 < reps)
    (hE : trials * reps = timestamps.length)
    (hcode : ∀ row ∈ events, ∀ c ∈ row, c < reps) :
    ∃ out,
      raw2epoch cfg raw timestamps events = .ok out ∧
      out = downsamp3 (cfg.samplerate / cfg.downsamp)
        (timewindow3 (winLoIdx cfg) (winHiIdx cfg)
          (apply_baseline (0 - cutLo cfg).toNat
            (detrend3 (sort_epochs
              (cut_epochs (cutLo cfg) (cutHi cfg) raw timestamps) events)))) ∧
      out.length = timestamps.length ∧
      (∀ ep ∈ out, ep.length = raw.length) ∧
      (∀ i j, i < trials → j < reps →
        out.getD (i * reps + j) []
          = perEpoch cfg ((cut_epochs (cutLo cfg) (cutHi cfg) raw timestamps).getD
              (i * reps + (events.getD i []).getD j 0) [])) := by
  have hhead : 0 < events.length → (events.headD []).length = reps := by
    intro htpos
    cases events with
    | nil => simp at htpos
    | cons r rest =>
      simp only [List.headD_cons]
      exact hrow r (List.mem_cons_self r rest)
  refine ⟨_, by rw [raw2epoch, if_pos htype], rfl, ?_, ?_, ?_⟩
  · rw [stages_eq_map_perEpoch]
    rw [List.length_map, sort_epochs_length]
    rcases Nat.eq_zero_or_pos events.length with h0 | hpos
    · rw [← htr] at hE
      rw [h0, Nat.zero_mul] at hE
      rw [h0, Nat.zero_mul]
      exact hE
    · rw [hhead hpos, htr, hE]
  · rw [stages_eq_map_perEpoch]
    intro ep hep
    obtain ⟨a, ha, rfl⟩ := List.mem_map.mp hep
    rw [perEpoch, List.length_map]
    unfold sort_epochs at ha
    obtain ⟨k, hkr, rfl⟩ := List.mem_map.mp ha
    rw [List.mem_range] at hkr
    have hpos : 0 < events.length := by
      rcases Nat.eq_zero_or_pos events.length with h0 | hpos
      · rw [h0, Nat.zero_mul] at hkr
        omega
      · exact hpos
    have hh : (events.headD []).length = reps := hhead hpos
    rw [hh] at hkr ⊢
    have hdivlt : k / reps < events.length :=
      Nat.div_lt_of_lt_mul (by rw [Nat.mul_comm]; exact hkr)
    have hrowmem : events.getD (k / reps) [] ∈ events :=
      getD_mem_of_lt events (k / reps) [] hdivlt
    have hrowlen : (events.getD (k / reps) []).length = reps := hrow _ hrowmem
    have hcodelt : (events.getD (k / reps) []).getD (k % reps) 0 < reps := by
      refine hcode _ hrowmem _ (getD_mem_of_lt _ _ _ ?_)
      rw [hrowlen]
      exact Nat.mod_lt _ hreps
    have hidx' : (k / reps) * reps + (events.getD (k / reps) []).getD (k % reps) 0
        < events.length * reps :=
      calc (k / reps) * reps + (events.getD (k / reps) []).getD (k % reps) 0
          < (k / reps) * reps + reps := by omega
        _ = (k / reps + 1) * reps := by ring
        _ ≤ events.length * reps := Nat.mul_le_mul_right reps (by omega)
    have hidx : (k / reps) * reps + (events.getD (k / reps) []).getD (k % reps) 0
        < timestamps.length := by
      rw [← hE, ← htr]
      exact hidx'
    exact cut_epochs_getD_length _ _ _ _ _ hidx
  · intro i j hi hj
    have hpos : 0 < events.length := by omega
    have hh : (events.headD []).length = reps := hhead hpos
    have hk : i * reps + j
        < (sort_epochs (cut_epochs (cutLo cfg) (cutHi cfg) raw timestamps)
            events).length := by
      rw [sort_epochs_length, hh]
      calc i * reps + j < i * reps + reps := by omega
        _ = (i + 1) * reps := by ring
        _ ≤ events.length * reps := Nat.mul_le_mul_right reps (by omega)
    rw [stages_eq_map_perEpoch,
      map_getD_default (perEpoch cfg) _ _ [] [] rfl,
      sort_epochs_getD _ _ reps i j hreps hh (by omega) hj]

/-- Witness for C2: `raw2epoch` on the concrete recording, timestamps `[0, 2]`
and event matrix `evW` (`trials = 2`, `reps = 1`). -/
theorem raw2epoch_shape_and_order_witness :
    ∃ out,
      raw2epoch cfgW rawW [0, 2] evW = .ok out ∧
      out = downsamp3 (cfgW.samplerate / cfgW.downsamp)
        (timewindow3 (winLoIdx cfgW) (winHiIdx cfgW)
          (apply_baseline (0 - cutLo cfgW).toNat
            (detrend3 (sort_epochs
              (cut_epochs (cutLo cfgW) (cutHi cfgW) rawW [0, 2]) evW)))) ∧
      out.length = [0, 2].length ∧
      (∀ ep ∈ out, ep.length = rawW.length) ∧
      (∀ i j, i < 2 → j < 1 →
        out.getD (i * 1 + j) []
          = perEpoch cfgW ((cut_epochs (cutLo cfgW) (cutHi cfgW) rawW [0, 2]).getD
              (i * 1 + (evW.getD i []).getD j 0) [])) :=
  raw2epoch_shape_and_order cfgW rawW [0, 2] evW 2 1 rfl rfl
    (by decide) (by decide) (by decide) (by decide)

/-- C1 counterexample: a `Model` constructed in train mode and fitted — but
with `ch_ind` never assigned, so the coefficient store is still empty — is
dumped to an empty file system; `dump` then writes no `coef.npz`, and
constructing the `test`-mode wrapper for the same subject and session fails
to load instead of reproducing `decision_function`. -/
theorem model_roundtrip_counterexample :
    ∃ mt : Model ℕ, mkModel ℕ 7 "s1" "2024-01-02-03-04-05" "train" ⟨fun _ => none⟩
        = .ok mt ∧
      mkModel ℕ 7 "s1" "2024-01-02-03-04-05" "test"
        (Model.dump (Model.fit (fun (p X y : ℕ) => p + X + y) mt 1 2)
          ⟨fun _ => none⟩)
        = .error "FileNotFoundError: coef.npz" :=
  ⟨⟨subjPath "s1", "2024-01-02-03-04-05", "train", [], 7, none⟩, rfl, rfl⟩

/-- C1 as amended: provided the coefficient store holds an `'ind_ch_scores'`
entry (as it does once `ch_ind` has been assigned), dumping a train-mode
wrapper and constructing a `test`-mode wrapper for the same subject and
session loads the persisted pipeline and coefficient store, and
`decision_function` then returns identical outputs for every input. -/
theorem model_roundtrip {P α γ : Type} (applyP : P → α → γ) (m : Model P)
    (fs : FS P) (fresh : P) (s d : String) (v : List ℤ)
    (hpath : m.subj_path = subjPath s) (hdate : m.date = d)
    (hkey : lookupDict m.data_dict "ind_ch_scores" = some v) :
    ∃ mt : Model P, mkModel P fresh s d "test" (m.dump fs) = .ok mt ∧
      mt.cls = m.cls ∧ mt.data_dict = m.data_dict ∧ mt.ch_ind = some v ∧
      ∀ X : α, mt.decision_function applyP X = m.decision_function applyP X := by
  have hne : ¬ m.data_dict.isEmpty := by
    intro hemp
    rw [List.isEmpty_iff] at hemp
    rw [hemp] at hkey
    simp [lookupDict] at hkey
  have hpaths : ([m.subj_path, m.date, "model.pkl"] : List String)
      ≠ [m.subj_path, m.date, "coef.npz"] := by
    simp
  refine ⟨⟨subjPath s, d, "test", m.data_dict, m.cls, some v⟩, ?_, rfl, rfl, rfl,
    fun X => rfl⟩
  unfold mkModel
  rw [if_neg (by decide), if_pos (by decide)]
  have hcoef : (m.dump fs).files [subjPath s, d, "coef.npz"]
      = some (.npz m.data_dict) := by
    unfold Model.dump
    rw [if_neg hne]
    simp [FS.write, hpath, hdate]
  have hpkl : (m.dump fs).files [subjPath s, d, "model.pkl"]
      = some (.pkl m.cls) := by
    unfold Model.dump
    simp [FS.write, hpath, hdate]
  rw [hcoef, hpkl]
  simp [hkey, show pyLower "test" = "test" from by decide]

/-- Witness for the amended C1 at a concrete model (pipeline token `7`,
coefficient store holding `ind_ch_scores = [1, 2, 3]`). -/
theorem model_roundtrip_witness :
    ∃ mt : Model ℕ,
      mkModel ℕ 9 "s1" "d"
        "test"
        (Model.dump
          (⟨subjPath "s1", "d", "train", [("ind_ch_scores", [1, 2, 3])], 7, some [1, 2, 3]⟩ :
            Model ℕ) ⟨fun _ => none⟩)
        = .ok mt ∧
      mt.cls = (⟨subjPath "s1", "d", "train", [("ind_ch_scores", [1, 2, 3])], 7, some [1, 2, 3]⟩ :
          Model ℕ).cls ∧
      mt.data_dict = (⟨subjPath "s1", "d", "train", [("ind_ch_scores", [1, 2, 3])], 7, some [1, 2, 3]⟩ :
          Model ℕ).data_dict ∧
      mt.ch_ind = some [1, 2, 3] ∧
      ∀ X : ℕ, mt.decision_function (fun p x => p + x) X
        = Model.decision_function (fun p x => p + x)
            (⟨subjPath "s1", "d", "train", [("ind_ch_scores", [1, 2, 3])], 7, some [1, 2, 3]⟩ :
              Model ℕ) X :=
  model_roundtrip (fun p x => p + x)
    ⟨subjPath "s1", "d", "train", [("ind_ch_scores", [1, 2, 3])], 7, some [1, 2, 3]⟩
    ⟨fun _ => none⟩ 9 "s1" "d" [1, 2, 3] rfl rfl rfl

end DualSpeller

